import Mathlib

/-!
Verification of the luxa-driver repository: a host-side driver for a USB HID
RGB indicator ("flag") device.  The development shallowly embeds the
protocol encoder (src/protocol.ts, src/device/flag.ts), the color codec
(src/util.ts = unnamed/part_001), the transport write step and the task
queue (src/device/device.ts), and the legacy synchronous facade
(src/flag.ts), and settles the frozen claims about them.

Conventions: JavaScript numbers are modelled as rationals (ℚ) where
fractional values can arise (brightness scaling, the `% 256 | 0`
normalization), as naturals (ℕ) where the source only ever holds
non-negative integers (buffer octets, enum codes), and fallible functions
return `Except LuxaErr`.  Strings are modelled as `List Char`.
-/

/-! ### Protocol constants (src/protocol.ts) -/

/-- The `Command` enum of src/protocol.ts: opcodes of the outbound frames. -/
inductive Command where
  | COLOR
  | FADE
  | FLASH
  | WAVE
  | POLICE
deriving DecidableEq

/-- Numeric value of each `Command` enum member (src/protocol.ts lines 1-7). -/
def Command.code : Command → ℕ
  | .COLOR => 0x01
  | .FADE => 0x02
  | .FLASH => 0x03
  | .WAVE => 0x04
  | .POLICE => 0x05

/-- The `Response` enum of src/protocol.ts: the two recognized response codes. -/
inductive Response where
  | ACK
  | DONE
deriving DecidableEq

/-- Numeric value of each `Response` enum member (src/protocol.ts lines 9-12). -/
def Response.code : Response → ℕ
  | .ACK => 0x4200
  | .DONE => 0x0001

/-- The `FlagLEDs.ALL` constant (0xff), used as the default target. -/
def allLEDs : ℕ := 0xff

/-- Error conditions raised by the driver.  `invalidColor` carries the
(trimmed) offending string, `unrecognizedResponse` the raw inbound buffer,
and `rangeErr` models the `ERR_OUT_OF_RANGE` thrown by
`Buffer.readUInt16BE` on a buffer shorter than two bytes. -/
inductive LuxaErr where
  | invalidColor (s : List Char)
  | unrecognizedResponse (buf : List ℕ)
  | rangeErr
deriving DecidableEq

/-! ### Response decoder (src/protocol.ts, decodeResponse) -/

/-- `Buffer.readUInt16BE()` at offset 0: the first two bytes as a big-endian
16-bit integer; throws a range error when fewer than two bytes exist. -/
def readUInt16BE (buf : List ℕ) : Except LuxaErr ℕ :=
  match buf with
  | b0 :: b1 :: _ => .ok (256 * b0 + b1)
  | _ => .error .rangeErr

/-- `decodeResponse` (src/protocol.ts lines 36-47): switch the big-endian
16-bit value against the two `Response` constants, otherwise throw an
unrecognized-response error carrying the raw buffer. -/
def decodeResponse (buf : List ℕ) : Except LuxaErr Response :=
  match readUInt16BE buf with
  | .error e => .error e
  | .ok raw =>
    if raw = Response.ACK.code then .ok .ACK
    else if raw = Response.DONE.code then .ok .DONE
    else .error (.unrecognizedResponse buf)

/-! ### Argument flattening (the `data.flatMap((data) => data)` step of
`write(...data)` in src/device/device.ts lines 44-55 and src/flag.ts
lines 126-139): each variadic argument is either a number or an array of
numbers, and the arguments are flattened into one flat list. -/

/-- Flatten a list of number-or-array arguments over ℚ. -/
def flattenQ : List (ℚ ⊕ List ℚ) → List ℚ
  | [] => []
  | .inl n :: rest => n :: flattenQ rest
  | .inr l :: rest => l ++ flattenQ rest

/-! ### Frame argument lists, as passed to `write` by each facade command
(src/device/flag.ts = unnamed/part_000, and identically src/flag.ts). -/

/-- Arguments of `this.write(Command.COLOR, target, rgb, 0, 0)`
(unnamed/part_000 line 88). -/
def colorFrameArgs (t : ℚ) (rgb : List ℚ) : List (ℚ ⊕ List ℚ) :=
  [.inl (Command.COLOR.code : ℕ), .inl t, .inr rgb, .inl 0, .inl 0]

/-- Arguments of `this.write(Command.FADE, target, rgb, duration, 0)`
(unnamed/part_000 lines 103-109). -/
def fadeFrameArgs (t : ℚ) (rgb : List ℚ) (d : ℚ) : List (ℚ ⊕ List ℚ) :=
  [.inl (Command.FADE.code : ℕ), .inl t, .inr rgb, .inl d, .inl 0]

/-- Arguments of `this.write(Command.FLASH, target, rgb, duration, 0, times)`
(unnamed/part_000 lines 125-132): duration precedes times. -/
def flashFrameArgs (t : ℚ) (rgb : List ℚ) (d n : ℚ) : List (ℚ ⊕ List ℚ) :=
  [.inl (Command.FLASH.code : ℕ), .inl t, .inr rgb, .inl d, .inl 0, .inl n]

/-- Arguments of `this.write(Command.WAVE, wave, rgb, 0, times, duration)`
(unnamed/part_000 lines 149-156): times precedes duration. -/
def waveFrameArgs (p : ℚ) (rgb : List ℚ) (n d : ℚ) : List (ℚ ⊕ List ℚ) :=
  [.inl (Command.WAVE.code : ℕ), .inl p, .inr rgb, .inl 0, .inl n, .inl d]

/-! ### Theorems for claims C2 and C5 -/

/-- Claim C2: for every command invocation with resolved parameters
(target t, RGB triple (R,G,B), duration d, times n, wave pattern p), the
encoder emits exactly the frame of the spec table: Color =
[0x01,t,R,G,B,0,0], Fade = [0x02,t,R,G,B,d,0], Flash = [0x03,t,R,G,B,d,0,n]
(duration before times), Wave = [0x04,p,R,G,B,0,n,d] (times before
duration), preserving the Flash/Wave byte-order asymmetry. -/
theorem encoder_frame_layout (t R G B d n p : ℚ) :
    flattenQ (colorFrameArgs t [R, G, B]) = [1, t, R, G, B, 0, 0] ∧
    flattenQ (fadeFrameArgs t [R, G, B] d) = [2, t, R, G, B, d, 0] ∧
    flattenQ (flashFrameArgs t [R, G, B] d n) = [3, t, R, G, B, d, 0, n] ∧
    flattenQ (waveFrameArgs p [R, G, B] n d) = [4, p, R, G, B, 0, n, d] := by
  refine ⟨?_, ?_, ?_, ?_⟩ <;> rfl

/-- Claim C5: for every inbound buffer (one fixed-size frame, hence at least
two bytes), the decoder reads the first two bytes as a big-endian 16-bit
integer and returns ACK iff it is 0x4200, DONE iff it is 0x0001, and
otherwise fails with an unrecognized-response error carrying the raw
buffer; it never silently defaults. -/
theorem decodeResponse_characterization (buf : List ℕ) (b0 b1 : ℕ)
    (rest : List ℕ) (h : buf = b0 :: b1 :: rest) :
    (decodeResponse buf = .ok .ACK ↔ 256 * b0 + b1 = 0x4200) ∧
    (decodeResponse buf = .ok .DONE ↔ 256 * b0 + b1 = 0x0001) ∧
    (256 * b0 + b1 ≠ 0x4200 → 256 * b0 + b1 ≠ 0x0001 →
      decodeResponse buf = .error (.unrecognizedResponse buf)) := by
  subst h
  unfold decodeResponse readUInt16BE
  by_cases hA : 256 * b0 + b1 = 0x4200
  · simp [hA, Response.code]
  · by_cases hD : 256 * b0 + b1 = 0x0001
    · simp [hA, hD, Response.code]
    · simp [hA, hD, Response.code]

/-- Witness for C5: decoding [0x42, 0x00] yields ACK, [0x00, 0x01] yields
DONE, and [0x00, 0x00] fails with the unrecognized-response error. -/
theorem decodeResponse_characterization_witness :
    decodeResponse [0x42, 0x00] = .ok .ACK ∧
    decodeResponse [0x00, 0x01] = .ok .DONE ∧
    decodeResponse [0x00, 0x00] = .error (.unrecognizedResponse [0x00, 0x00]) := by
  refine ⟨?_, ?_, ?_⟩
  · exact ((decodeResponse_characterization [0x42, 0x00] 0x42 0x00 [] rfl).1).mpr (by decide)
  · exact ((decodeResponse_characterization [0x00, 0x01] 0x00 0x01 [] rfl).2.1).mpr (by decide)
  · exact (decodeResponse_characterization [0x00, 0x00] 0x00 0x00 [] rfl).2.2
      (by decide) (by decide)

/-! ### Color codec (src/util.ts = unnamed/part_001, hex2bytes and
COLOR_REG; also duplicated as LuxaFlag.decode in src/flag.ts). -/

/-- JavaScript `String.prototype.trim` whitespace set (the ASCII white
space and line terminators plus NBSP, LS, PS and BOM; other Unicode Zs
code points never occur in color strings). -/
def isJsWs (c : Char) : Bool :=
  c = ' ' ∨ c = '\t' ∨ c = '\n' ∨ c = '\r' ∨
  c = Char.ofNat 0x0b ∨ c = Char.ofNat 0x0c ∨ c = Char.ofNat 0xa0 ∨
  c = Char.ofNat 0x2028 ∨ c = Char.ofNat 0x2029 ∨ c = Char.ofNat 0xfeff

/-- `color.trim()`: drop surrounding whitespace from both ends. -/
def trimJs (s : List Char) : List Char :=
  ((s.dropWhile isJsWs).reverse.dropWhile isJsWs).reverse

/-- A `[0-9a-f]` digit under the `i` (case-insensitive) regex flag,
by code point: 0x30-0x39 (`0`-`9`), 0x61-0x66 (`a`-`f`), 0x41-0x46
(`A`-`F`). -/
def isHexDigit (c : Char) : Bool :=
  (0x30 ≤ c.toNat ∧ c.toNat ≤ 0x39) ∨
  (0x61 ≤ c.toNat ∧ c.toNat ≤ 0x66) ∨
  (0x41 ≤ c.toNat ∧ c.toNat ≤ 0x46)

/-- Numeric value of one hex digit, as `Number.parseInt(str, 16)` assigns. -/
def hexVal (c : Char) : ℕ :=
  if 0x30 ≤ c.toNat ∧ c.toNat ≤ 0x39 then c.toNat - 0x30
  else if 0x61 ≤ c.toNat ∧ c.toNat ≤ 0x66 then c.toNat - 0x61 + 10
  else if 0x41 ≤ c.toNat ∧ c.toNat ≤ 0x46 then c.toNat - 0x41 + 10
  else 0

/-- `Number.parseInt(str, 16)` on a string of hex digits. -/
def parseHexNat (s : List Char) : ℕ :=
  s.foldl (fun acc c => 16 * acc + hexVal c) 0

/-- One backtracking attempt of a `[0-9a-f]{1,2}` capture group: consume
exactly `n` characters, all hex digits, returning the group and the rest. -/
def takeHex (n : ℕ) (s : List Char) : Option (List Char × List Char) :=
  if (s.take n).length = n ∧ (s.take n).all isHexDigit then
    some (s.take n, s.drop n)
  else none

/-- One full backtracking attempt of `COLOR_REG` after the optional `#`:
group lengths (a, b, c), anchored at the end (`$`). -/
def tryCombo (a b c : ℕ) (s : List Char) :
    Option (List Char × List Char × List Char) :=
  (takeHex a s).bind (fun p1 =>
  (takeHex b p1.2).bind (fun p2 =>
  (takeHex c p2.2).bind (fun p3 =>
  if p3.2 = [] then some (p1.1, p2.1, p3.1) else none)))

/-- The greedy backtracking order of the three `{1,2}` quantifiers of
`COLOR_REG = /^#?([0-9a-f]{1,2})([0-9a-f]{1,2})([0-9a-f]{1,2})$/i`:
each group prefers two characters, backtracking right-to-left, and the
first fully anchored attempt wins. -/
def execGroups (s : List Char) : Option (List Char × List Char × List Char) :=
  match tryCombo 2 2 2 s with
  | some g => some g
  | none =>
  match tryCombo 2 2 1 s with
  | some g => some g
  | none =>
  match tryCombo 2 1 2 s with
  | some g => some g
  | none =>
  match tryCombo 2 1 1 s with
  | some g => some g
  | none =>
  match tryCombo 1 2 2 s with
  | some g => some g
  | none =>
  match tryCombo 1 2 1 s with
  | some g => some g
  | none =>
  match tryCombo 1 1 2 s with
  | some g => some g
  | none => tryCombo 1 1 1 s

/-- The optional leading `#` of `COLOR_REG` (`#?`): consumed when present
(no later alternative can succeed without consuming it, since `#` is not a
hex digit). -/
def stripHash : List Char → List Char
  | '#' :: rest => rest
  | s => s

/-- `COLOR_REG.exec(color)` restricted to its three capture groups. -/
def execColorReg (s : List Char) : Option (List Char × List Char × List Char) :=
  execGroups (stripHash s)

/-- Short-hex expansion (util.ts lines 24-26): a single-character capture
group is doubled (`f` becomes `ff`). -/
def expandGroup (g : List Char) : List Char :=
  match g with
  | [c] => [c, c]
  | other => other

/-- `hex2bytes` (src/util.ts lines 7-33): trim, match `COLOR_REG` (throwing
an invalid-color error naming the trimmed string on failure), then parse
each capture group, doubled when one character, as base-16. -/
def hex2bytes (color : List Char) : Except LuxaErr (List ℕ) :=
  match execColorReg (trimJs color) with
  | none => .error (.invalidColor (trimJs color))
  | some (g1, g2, g3) =>
    .ok ([g1, g2, g3].map (fun g => parseHexNat (expandGroup g)))

/-- The spec-side validity predicate of claim C4, amended: after trimming,
an optional `#` followed by 3 to 6 hex digits (each of the three capture
groups takes one or two). -/
def validColor (s : List Char) : Bool :=
  (stripHash (trimJs s)).all isHexDigit &&
  decide (3 ≤ (stripHash (trimJs s)).length) &&
  decide ((stripHash (trimJs s)).length ≤ 6)


/-! ### Lemmas about the COLOR_REG matcher -/

theorem takeHex_some (n : ℕ) (s g r : List Char)
    (h : takeHex n s = some (g, r)) :
    s = g ++ r ∧ g.length = n ∧ g.all isHexDigit = true := by
  unfold takeHex at h
  split at h
  · rename_i hcond
    injection h with h
    injection h with hg hr
    subst hg
    subst hr
    exact ⟨(List.take_append_drop n s).symm, hcond.1, hcond.2⟩
  · exact absurd h (by simp)

theorem tryCombo_some (a b c : ℕ) (s g1 g2 g3 : List Char)
    (h : tryCombo a b c s = some (g1, g2, g3)) :
    s = g1 ++ g2 ++ g3 ∧ g1.length = a ∧ g2.length = b ∧ g3.length = c ∧
    g1.all isHexDigit = true ∧ g2.all isHexDigit = true ∧
    g3.all isHexDigit = true := by
  unfold tryCombo at h
  obtain ⟨p1, h1, h⟩ := Option.bind_eq_some.mp h
  obtain ⟨p2, h2, h⟩ := Option.bind_eq_some.mp h
  obtain ⟨p3, h3, h⟩ := Option.bind_eq_some.mp h
  split at h
  · rename_i hnil
    injection h with h
    injection h with e1 h
    injection h with e2 e3
    obtain ⟨q1, l1, x1⟩ := takeHex_some a s p1.1 p1.2 (by rw [← h1])
    obtain ⟨q2, l2, x2⟩ := takeHex_some b p1.2 p2.1 p2.2 (by rw [← h2])
    obtain ⟨q3, l3, x3⟩ := takeHex_some c p2.2 p3.1 p3.2 (by rw [← h3])
    subst e1
    subst e2
    subst e3
    refine ⟨?_, l1, l2, l3, x1, x2, x3⟩
    rw [q1, q2, q3, hnil]
    simp
  · exact absurd h (by simp)

theorem execGroups_combo (s g1 g2 g3 : List Char)
    (h : execGroups s = some (g1, g2, g3)) :
    ∃ a b c, 1 ≤ a ∧ a ≤ 2 ∧ 1 ≤ b ∧ b ≤ 2 ∧ 1 ≤ c ∧ c ≤ 2 ∧
      tryCombo a b c s = some (g1, g2, g3) := by
  unfold execGroups at h
  cases e1 : tryCombo 2 2 2 s with
  | some g =>
    rw [e1] at h
    exact ⟨2, 2, 2, by omega, by omega, by omega, by omega, by omega, by omega,
      by rw [e1]; exact h⟩
  | none =>
  rw [e1] at h
  cases e2 : tryCombo 2 2 1 s with
  | some g =>
    rw [e2] at h
    exact ⟨2, 2, 1, by omega, by omega, by omega, by omega, by omega, by omega,
      by rw [e2]; exact h⟩
  | none =>
  rw [e2] at h
  cases e3 : tryCombo 2 1 2 s with
  | some g =>
    rw [e3] at h
    exact ⟨2, 1, 2, by omega, by omega, by omega, by omega, by omega, by omega,
      by rw [e3]; exact h⟩
  | none =>
  rw [e3] at h
  cases e4 : tryCombo 2 1 1 s with
  | some g =>
    rw [e4] at h
    exact ⟨2, 1, 1, by omega, by omega, by omega, by omega, by omega, by omega,
      by rw [e4]; exact h⟩
  | none =>
  rw [e4] at h
  cases e5 : tryCombo 1 2 2 s with
  | some g =>
    rw [e5] at h
    exact ⟨1, 2, 2, by omega, by omega, by omega, by omega, by omega, by omega,
      by rw [e5]; exact h⟩
  | none =>
  rw [e5] at h
  cases e6 : tryCombo 1 2 1 s with
  | some g =>
    rw [e6] at h
    exact ⟨1, 2, 1, by omega, by omega, by omega, by omega, by omega, by omega,
      by rw [e6]; exact h⟩
  | none =>
  rw [e6] at h
  cases e7 : tryCombo 1 1 2 s with
  | some g =>
    rw [e7] at h
    exact ⟨1, 1, 2, by omega, by omega, by omega, by omega, by omega, by omega,
      by rw [e7]; exact h⟩
  | none =>
  rw [e7] at h
  exact ⟨1, 1, 1, by omega, by omega, by omega, by omega, by omega, by omega, h⟩

theorem execGroups_valid (s g1 g2 g3 : List Char)
    (h : execGroups s = some (g1, g2, g3)) :
    s = g1 ++ g2 ++ g3 ∧
    1 ≤ g1.length ∧ g1.length ≤ 2 ∧ 1 ≤ g2.length ∧ g2.length ≤ 2 ∧
    1 ≤ g3.length ∧ g3.length ≤ 2 ∧
    g1.all isHexDigit = true ∧ g2.all isHexDigit = true ∧
    g3.all isHexDigit = true := by
  obtain ⟨a, b, c, ha1, ha2, hb1, hb2, hc1, hc2, hcombo⟩ :=
    execGroups_combo s g1 g2 g3 h
  obtain ⟨e, l1, l2, l3, x1, x2, x3⟩ := tryCombo_some a b c s g1 g2 g3 hcombo
  exact ⟨e, by omega, by omega, by omega, by omega, by omega, by omega,
    x1, x2, x3⟩

theorem takeHex_cons2 (c1 c2 : Char) (r : List Char)
    (h1 : isHexDigit c1 = true) (h2 : isHexDigit c2 = true) :
    takeHex 2 (c1 :: c2 :: r) = some ([c1, c2], r) := by
  unfold takeHex
  rw [show List.take 2 (c1 :: c2 :: r) = [c1, c2] from rfl,
    show List.drop 2 (c1 :: c2 :: r) = r from rfl]
  simp [h1, h2]

theorem takeHex_cons1 (c1 : Char) (r : List Char)
    (h1 : isHexDigit c1 = true) :
    takeHex 1 (c1 :: r) = some ([c1], r) := by
  unfold takeHex
  rw [show List.take 1 (c1 :: r) = [c1] from rfl,
    show List.drop 1 (c1 :: r) = r from rfl]
  simp [h1]

theorem takeHex_two_singleton (c1 : Char) : takeHex 2 [c1] = none := rfl

theorem takeHex_two_nil : takeHex 2 ([] : List Char) = none := rfl

theorem takeHex_one_nil : takeHex 1 ([] : List Char) = none := rfl

theorem execGroups_isSome_of_valid (s : List Char)
    (hhex : s.all isHexDigit = true) (h3 : 3 ≤ s.length)
    (h6 : s.length ≤ 6) : (execGroups s).isSome = true := by
  rcases s with _ | ⟨c1, s⟩
  · simp at h3
  rcases s with _ | ⟨c2, s⟩
  · simp at h3
  rcases s with _ | ⟨c3, s⟩
  · simp at h3
  rcases s with _ | ⟨c4, s⟩
  · simp only [List.all_cons, List.all_nil, Bool.and_eq_true] at hhex
    simp [execGroups, tryCombo, takeHex_cons2, takeHex_cons1,
      takeHex_two_singleton, takeHex_two_nil, takeHex_one_nil,
      hhex.1, hhex.2.1, hhex.2.2.1]
  rcases s with _ | ⟨c5, s⟩
  · simp only [List.all_cons, List.all_nil, Bool.and_eq_true] at hhex
    simp [execGroups, tryCombo, takeHex_cons2, takeHex_cons1,
      takeHex_two_singleton, takeHex_two_nil, takeHex_one_nil,
      hhex.1, hhex.2.1, hhex.2.2.1, hhex.2.2.2.1]
  rcases s with _ | ⟨c6, s⟩
  · simp only [List.all_cons, List.all_nil, Bool.and_eq_true] at hhex
    simp [execGroups, tryCombo, takeHex_cons2, takeHex_cons1,
      takeHex_two_singleton, takeHex_two_nil, takeHex_one_nil,
      hhex.1, hhex.2.1, hhex.2.2.1, hhex.2.2.2.1, hhex.2.2.2.2.1]
  rcases s with _ | ⟨c7, s⟩
  · simp only [List.all_cons, List.all_nil, Bool.and_eq_true] at hhex
    simp [execGroups, tryCombo, takeHex_cons2, takeHex_cons1,
      takeHex_two_singleton, takeHex_two_nil, takeHex_one_nil,
      hhex.1, hhex.2.1, hhex.2.2.1, hhex.2.2.2.1, hhex.2.2.2.2.1,
      hhex.2.2.2.2.2.1]
  · simp at h6

/-- Helper: the codec succeeds exactly on valid color strings, and on the
others it fails with the invalid-color error naming the trimmed string. -/
theorem hex2bytes_ok_iff (s : List Char) :
    ((hex2bytes s).isOk = validColor s) ∧
    (validColor s = false → hex2bytes s = .error (.invalidColor (trimJs s))) := by
  cases hm : execColorReg (trimJs s) with
  | none =>
    have hv : validColor s = false := by
      cases hv : validColor s with
      | false => rfl
      | true =>
        exfalso
        unfold validColor at hv
        simp only [Bool.and_eq_true, decide_eq_true_eq] at hv
        have := execGroups_isSome_of_valid (stripHash (trimJs s))
          hv.1.1 hv.1.2 hv.2
        rw [show execGroups (stripHash (trimJs s)) = execColorReg (trimJs s)
            from rfl, hm] at this
        simp at this
    have he : hex2bytes s = .error (.invalidColor (trimJs s)) := by
      unfold hex2bytes
      rw [hm]
    refine ⟨?_, fun _ => he⟩
    rw [he, hv]
    rfl
  | some g =>
    obtain ⟨g1, g2, g3⟩ := g
    have hv : validColor s = true := by
      obtain ⟨e, l11, l12, l21, l22, l31, l32, x1, x2, x3⟩ :=
        execGroups_valid (stripHash (trimJs s)) g1 g2 g3 hm
      unfold validColor
      rw [e]
      simp [x1, x2, x3]
      omega
    have he : hex2bytes s =
        .ok ([g1, g2, g3].map (fun g => parseHexNat (expandGroup g))) := by
      unfold hex2bytes
      rw [hm]
    refine ⟨?_, ?_⟩
    · rw [he, hv]
      rfl
    · intro hfalse
      rw [hv] at hfalse
      exact absurd hfalse (by simp)

/-- Claim C4 counterexample: the four-digit string "#ffff" is accepted by
the codec (the regex quantifiers are {1,2} per capture group, so totals of
4 and 5 digits also match), contradicting the claim that every string
other than 3- or 6-digit forms fails with the invalid-color error. -/
theorem four_digit_color_accepted :
    hex2bytes ['#', 'f', 'f', 'f', 'f'] = .ok [255, 255, 255] := by rfl

/-- Claim C4 (amended): the codec succeeds exactly on strings that, after
trimming surrounding whitespace, consist of an optional leading '#'
followed by 3 to 6 hex digits, case-insensitive (the three capture groups
take one or two digits each, so any total from 3 to 6 matches, not only 3
or 6); for every other string it fails with the invalid-color error naming
the offending (trimmed) string. -/
theorem hex2bytes_success_characterization (s : List Char) :
    ((hex2bytes s).isOk = validColor s) ∧
    (validColor s = false → hex2bytes s = .error (.invalidColor (trimJs s))) :=
  hex2bytes_ok_iff s

/-- Witness for C4 (amended): the non-hex string "red" is rejected with the
invalid-color error naming it. -/
theorem hex2bytes_success_characterization_witness :
    (hex2bytes ['r', 'e', 'd']).isOk = validColor ['r', 'e', 'd'] ∧
    hex2bytes ['r', 'e', 'd'] =
      .error (.invalidColor (trimJs ['r', 'e', 'd'])) :=
  ⟨(hex2bytes_success_characterization ['r', 'e', 'd']).1,
    (hex2bytes_success_characterization ['r', 'e', 'd']).2 (by decide)⟩

/-! ### Bounds on parsed channel values -/

theorem hexVal_le_15 (c : Char) (_h : isHexDigit c = true) : hexVal c ≤ 15 := by
  unfold hexVal
  repeat' split
  all_goals omega

theorem parseHexNat_le_255 (g : List Char) (h1 : 1 ≤ g.length)
    (h2 : g.length ≤ 2) (hhex : g.all isHexDigit = true) :
    parseHexNat (expandGroup g) ≤ 255 := by
  rcases g with _ | ⟨c1, g⟩
  · simp at h1
  rcases g with _ | ⟨c2, g⟩
  · simp only [List.all_cons, List.all_nil, Bool.and_eq_true] at hhex
    have := hexVal_le_15 c1 hhex.1
    simp only [expandGroup, parseHexNat, List.foldl]
    omega
  rcases g with _ | ⟨c3, g⟩
  · simp only [List.all_cons, List.all_nil, Bool.and_eq_true] at hhex
    have hb1 := hexVal_le_15 c1 hhex.1
    have hb2 := hexVal_le_15 c2 hhex.2.1
    simp only [expandGroup, parseHexNat, List.foldl]
    omega
  · simp at h2

/-- Every channel value produced by the raw codec is an integer between 0
and 255. -/
theorem hex2bytes_mem_le_255 (s : List Char) (l : List ℕ)
    (h : hex2bytes s = .ok l) : ∀ v ∈ l, v ≤ 255 := by
  unfold hex2bytes at h
  cases hm : execColorReg (trimJs s) with
  | none =>
    rw [hm] at h
    exact absurd h (by simp)
  | some g =>
    obtain ⟨g1, g2, g3⟩ := g
    rw [hm] at h
    injection h with h
    obtain ⟨e, l11, l12, l21, l22, l31, l32, x1, x2, x3⟩ :=
      execGroups_valid (stripHash (trimJs s)) g1 g2 g3 hm
    subst h
    intro v hv
    simp only [List.map_cons, List.map_nil, List.mem_cons,
      List.not_mem_nil, or_false] at hv
    rcases hv with hv | hv | hv
    · exact hv ▸ parseHexNat_le_255 g1 l11 l12 x1
    · exact hv ▸ parseHexNat_le_255 g2 l21 l22 x2
    · exact hv ▸ parseHexNat_le_255 g3 l31 l32 x3

/-! ### The write step (src/device/device.ts lines 44-55, identically
src/flag.ts lines 126-139): `byte % 256 | 0` on each flattened value, and
the win32-only leading zero byte. -/

/-- Truncation toward zero, as JavaScript applies to the operands and
results of `%` and `| 0`. -/
def ratTrunc (q : ℚ) : ℤ :=
  if 0 ≤ q then ⌊q⌋ else -⌊-q⌋

/-- The JavaScript remainder operator `x % y`: `x - y * trunc(x / y)`,
keeping the sign of the dividend. -/
def jsMod (x y : ℚ) : ℚ :=
  x - y * (ratTrunc (x / y) : ℚ)

/-- `ToInt32`, the coercion applied by the bitwise `| 0`: truncate toward
zero, wrap modulo 2^32, and reinterpret as a signed 32-bit value. -/
def toInt32 (n : ℤ) : ℤ :=
  if n % 4294967296 < 2147483648 then n % 4294967296
  else n % 4294967296 - 4294967296

/-- One byte of the write step: `(byte) => byte % 256 | 0`. -/
def jsByteNorm (x : ℚ) : ℤ :=
  toInt32 (ratTrunc (jsMod x 256))

/-- `write(...data)` (src/device/device.ts lines 44-55): flatten the
number-or-array arguments, normalize each value with `% 256 | 0`, and on
the win32 platform prefix a single leading zero byte. -/
def luxaWrite (win32 : Bool) (data : List (ℚ ⊕ List ℚ)) : List ℤ :=
  if win32 then 0 :: (flattenQ data).map jsByteNorm
  else (flattenQ data).map jsByteNorm

/-- On a non-negative input, `x % 256 | 0` equals `⌊x⌋ mod 256`, an integer
in [0, 255]. -/
theorem jsByteNorm_of_nonneg (x : ℚ) (hx : 0 ≤ x) :
    jsByteNorm x = ⌊x⌋ % 256 ∧ 0 ≤ ⌊x⌋ % 256 ∧ ⌊x⌋ % 256 ≤ 255 := by
  have h256 : (0 : ℚ) < 256 := by norm_num
  have hq : (0 : ℚ) ≤ x / 256 := by positivity
  have hk0 : ((⌊x / 256⌋ : ℤ) : ℚ) * 256 ≤ x :=
    (le_div_iff₀ h256).mp (Int.floor_le (x / 256))
  have hk1 : x < (((⌊x / 256⌋ : ℤ) : ℚ) + 1) * 256 :=
    (div_lt_iff₀ h256).mp (Int.lt_floor_add_one (x / 256))
  have hmod : jsMod x 256 = x - 256 * ((⌊x / 256⌋ : ℤ) : ℚ) := by
    unfold jsMod ratTrunc
    rw [if_pos hq]
  have hr0 : 0 ≤ x - 256 * ((⌊x / 256⌋ : ℤ) : ℚ) := by linarith
  have hr256 : x - 256 * ((⌊x / 256⌋ : ℤ) : ℚ) < 256 := by linarith
  have hfr : ⌊x - 256 * ((⌊x / 256⌋ : ℤ) : ℚ)⌋ = ⌊x⌋ - 256 * ⌊x / 256⌋ := by
    rw [show (256 : ℚ) * ((⌊x / 256⌋ : ℤ) : ℚ) = ((256 * ⌊x / 256⌋ : ℤ) : ℚ) by
      push_cast
      ring]
    exact Int.floor_sub_int x (256 * ⌊x / 256⌋)
  have hm0 : 0 ≤ ⌊x⌋ - 256 * ⌊x / 256⌋ := by
    rw [← hfr]
    exact Int.floor_nonneg.mpr hr0
  have hm255 : ⌊x⌋ - 256 * ⌊x / 256⌋ < 256 := by
    rw [← hfr, Int.floor_lt]
    exact_mod_cast hr256
  have hemod : ⌊x⌋ % 256 = ⌊x⌋ - 256 * ⌊x / 256⌋ := by
    conv_lhs =>
      rw [show ⌊x⌋ = (⌊x⌋ - 256 * ⌊x / 256⌋) + 256 * ⌊x / 256⌋ by ring]
    rw [Int.add_mul_emod_self_left]
    exact Int.emod_eq_of_lt hm0 hm255
  have htrunc : ratTrunc (jsMod x 256) = ⌊x⌋ - 256 * ⌊x / 256⌋ := by
    rw [hmod]
    unfold ratTrunc
    rw [if_pos hr0]
    exact hfr
  have hnorm : jsByteNorm x = ⌊x⌋ - 256 * ⌊x / 256⌋ := by
    unfold jsByteNorm toInt32
    rw [htrunc, Int.emod_eq_of_lt hm0 (by omega), if_pos (by omega)]
  exact ⟨by rw [hnorm, hemod], by rw [hemod]; exact hm0, by rw [hemod]; omega⟩

/-! ### Concrete evaluations of the byte normalization -/

theorem jsByteNorm_neg_one : jsByteNorm (-1 : ℚ) = -1 := by
  have hf : ⌊(1 : ℚ) / 256⌋ = 0 := by
    rw [Int.floor_eq_iff]
    norm_num
  have h2 : ratTrunc ((-1 : ℚ) / 256) = 0 := by
    unfold ratTrunc
    rw [if_neg (by norm_num), show -((-1 : ℚ) / 256) = 1 / 256 by norm_num,
      hf]
    norm_num
  have h3 : jsMod (-1 : ℚ) 256 = -1 := by
    unfold jsMod
    rw [h2]
    norm_num
  have h4 : ratTrunc (-1 : ℚ) = -1 := by
    unfold ratTrunc
    rw [if_neg (by norm_num), show -(-1 : ℚ) = 1 by norm_num]
    norm_num
  unfold jsByteNorm
  rw [h3, h4]
  decide

/-- Claim C8 counterexample: on the negative input -1 the write step
transmits -1 (JavaScript `%` keeps the dividend's sign and `| 0` preserves
negative 32-bit values), which is not in the 0-255 range the claim asserts
for every numeric input. -/
theorem write_negative_input_not_byte :
    luxaWrite false [.inl (-1 : ℚ)] = [-1] ∧ ¬(0 ≤ (-1 : ℤ)) := by
  refine ⟨?_, by decide⟩
  simp [luxaWrite, flattenQ, jsByteNorm_neg_one]

/-- Claim C8 (amended): for every list of NON-NEGATIVE numeric inputs,
each transmitted byte is floor(input) mod 256, an integer in [0, 255];
and exactly on the win32 platform one leading zero byte is prefixed to the
frame, on every other platform none.  (For negative inputs the JS
truncated remainder is negative, so the original claim's range statement
fails there.) -/
theorem write_nonneg_bytes_spec (w : Bool) (data : List (ℚ ⊕ List ℚ))
    (h : ∀ x ∈ flattenQ data, 0 ≤ x) :
    luxaWrite w data =
      (if w then [0] else []) ++ (flattenQ data).map (fun x => ⌊x⌋ % 256) ∧
    (∀ b ∈ luxaWrite w data, 0 ≤ b ∧ b ≤ 255) := by
  have hmap : (flattenQ data).map jsByteNorm =
      (flattenQ data).map (fun x => ⌊x⌋ % 256) := by
    apply List.map_congr_left
    intro x hx
    exact (jsByteNorm_of_nonneg x (h x hx)).1
  constructor
  · unfold luxaWrite
    cases w
    · simp [hmap]
    · simp [hmap]
  · intro b hb
    unfold luxaWrite at hb
    have hcase : b = 0 ∨ ∃ x ∈ flattenQ data, jsByteNorm x = b := by
      cases w
      · simp only [Bool.false_eq_true, if_false, List.mem_map] at hb
        obtain ⟨x, hx, he⟩ := hb
        exact Or.inr ⟨x, hx, he⟩
      · simp only [if_pos, List.mem_cons, List.mem_map] at hb
        rcases hb with h0 | ⟨x, hx, he⟩
        · exact Or.inl h0
        · exact Or.inr ⟨x, hx, he⟩
    rcases hcase with rfl | ⟨x, hx, he⟩
    · exact ⟨le_refl 0, by norm_num⟩
    · obtain ⟨e, e0, e255⟩ := jsByteNorm_of_nonneg x (h x hx)
      rw [← he, e]
      exact ⟨e0, e255⟩

/-- Witness for C8 (amended): writing the single fractional input 300.5 on
win32 produces the prefixed frame [0, 44] (floor(300.5) mod 256 = 44). -/
theorem write_nonneg_bytes_spec_witness :
    (luxaWrite true [.inl ((601 : ℚ) / 2)] =
      (if true then [0] else []) ++
        (flattenQ [.inl ((601 : ℚ) / 2)]).map (fun x => ⌊x⌋ % 256) ∧
      (∀ b ∈ luxaWrite true [.inl ((601 : ℚ) / 2)], 0 ≤ b ∧ b ≤ 255)) ∧
    luxaWrite true [.inl ((601 : ℚ) / 2)] = [0, 44] := by
  have hfloor : ⌊(601 : ℚ) / 2⌋ = 300 := by
    rw [Int.floor_eq_iff]
    norm_num
  have hb : jsByteNorm ((601 : ℚ) / 2) = 44 := by
    obtain ⟨e, _, _⟩ := jsByteNorm_of_nonneg ((601 : ℚ) / 2) (by norm_num)
    rw [e, hfloor]
    decide
  refine ⟨write_nonneg_bytes_spec true [.inl ((601 : ℚ) / 2)] ?_, ?_⟩
  · intro x hx
    simp only [flattenQ, List.mem_singleton] at hx
    subst hx
    norm_num
  · simp [luxaWrite, flattenQ, hb]

/-! ### The queued facade codec (unnamed/part_000, LuxaFlag.hex2bytes,
lines 180-182): scale each parsed channel by the brightness factor.  Note
the source does NOT floor here: `hex2bytes(color).map((byte) => (byte *=
this.brightness))`. -/

/-- `LuxaFlag.hex2bytes` of the queued facade: parse, then multiply each
channel by the brightness factor (no flooring at this layer). -/
def luxaHex2bytes (brightness : ℚ) (color : List Char) :
    Except LuxaErr (List ℚ) :=
  Except.map (fun bytes => bytes.map (fun v : ℕ => (v : ℚ) * brightness))
    (hex2bytes color)

/-- Claim C3 counterexample: decode("#f00", 0.5) in the queued facade codec
returns channel value 255/2 = 127.5, not the claimed floored integer 127:
the codec multiplies by brightness but does not floor. -/
theorem codec_unfloored_half_red :
    luxaHex2bytes (1 / 2) ['#', 'f', '0', '0'] = .ok [255 / 2, 0, 0] ∧
    (255 / 2 : ℚ) ≠ 127 := by
  have hparse : hex2bytes ['#', 'f', '0', '0'] = .ok [255, 0, 0] := by rfl
  constructor
  · unfold luxaHex2bytes
    rw [hparse]
    simp only [Except.map, List.map_cons, List.map_nil]
    norm_num
  · norm_num

/-- Claim C3 (amended): for every valid hex color string and brightness
b ∈ [0,1], the queued facade codec returns each channel as the parsed
base-16 value times b WITHOUT flooring (possibly a non-integer); the floor
to an integer in [0,255] is applied by the transport write step
(`% 256 | 0`), so each transmitted channel byte equals
floor(parsedChannel * b). -/
theorem codec_floor_applied_at_write (b : ℚ) (s : List Char) (rgb : List ℚ)
    (hb0 : 0 ≤ b) (hb1 : b ≤ 1) (h : luxaHex2bytes b s = .ok rgb) :
    rgb.map jsByteNorm = rgb.map (fun q => (⌊q⌋ : ℤ)) ∧
    ∀ q ∈ rgb, 0 ≤ ⌊q⌋ ∧ ⌊q⌋ ≤ 255 := by
  unfold luxaHex2bytes at h
  cases hh : hex2bytes s with
  | error e =>
    rw [hh] at h
    exact absurd h (by simp [Except.map])
  | ok l =>
    rw [hh] at h
    simp only [Except.map] at h
    injection h with h
    subst h
    have hbound := hex2bytes_mem_le_255 s l hh
    have key : ∀ q ∈ l.map (fun v : ℕ => (v : ℚ) * b), 0 ≤ q ∧ q ≤ 255 := by
      intro q hq
      simp only [List.mem_map] at hq
      obtain ⟨v, hv, rfl⟩ := hq
      refine ⟨mul_nonneg (Nat.cast_nonneg v) hb0, ?_⟩
      calc (v : ℚ) * b ≤ (v : ℚ) * 1 :=
            mul_le_mul_of_nonneg_left hb1 (Nat.cast_nonneg v)
        _ = (v : ℚ) := mul_one _
        _ ≤ 255 := by exact_mod_cast hbound v hv
    have hfl : ∀ q ∈ l.map (fun v : ℕ => (v : ℚ) * b),
        0 ≤ ⌊q⌋ ∧ ⌊q⌋ ≤ 255 := by
      intro q hq
      obtain ⟨hq0, hq255⟩ := key q hq
      refine ⟨Int.floor_nonneg.mpr hq0, ?_⟩
      have := Int.floor_le_floor hq255
      simpa using this
    refine ⟨?_, hfl⟩
    apply List.map_congr_left
    intro q hq
    obtain ⟨hq0, hq255⟩ := key q hq
    obtain ⟨h0, h255⟩ := hfl q hq
    obtain ⟨e, _, _⟩ := jsByteNorm_of_nonneg q hq0
    rw [e]
    exact Int.emod_eq_of_lt h0 (by omega)

/-- Witness for C3 (amended): at brightness 1/2 on "#f00" the codec yields
[255/2, 0, 0], and the write-step normalization of those channels is
exactly [127, 0, 0]. -/
theorem codec_floor_applied_at_write_witness :
    (([255 / 2, 0, 0] : List ℚ).map jsByteNorm =
      ([255 / 2, 0, 0] : List ℚ).map (fun q => (⌊q⌋ : ℤ)) ∧
      ∀ q ∈ ([255 / 2, 0, 0] : List ℚ), 0 ≤ ⌊q⌋ ∧ ⌊q⌋ ≤ 255) ∧
    ([255 / 2, 0, 0] : List ℚ).map jsByteNorm = [127, 0, 0] := by
  have hdec : luxaHex2bytes (1 / 2) ['#', 'f', '0', '0'] =
      .ok [255 / 2, 0, 0] := by
    have hparse : hex2bytes ['#', 'f', '0', '0'] = .ok [255, 0, 0] := by rfl
    unfold luxaHex2bytes
    rw [hparse]
    simp only [Except.map, List.map_cons, List.map_nil]
    norm_num
  have h := codec_floor_applied_at_write (1 / 2) ['#', 'f', '0', '0']
    [255 / 2, 0, 0] (by norm_num) (by norm_num) hdec
  have hf127 : ⌊(255 : ℚ) / 2⌋ = 127 := by
    rw [Int.floor_eq_iff]
    norm_num
  refine ⟨h, ?_⟩
  rw [h.1]
  simp only [List.map_cons, List.map_nil, hf127]
  norm_num

/-! ### Configuration (unnamed/part_000 lines 44-76, and the superseded
synchronous facade src/flag.ts lines 70-101). -/

/-- The four configuration fields owned by the facade. -/
structure FlagConfig where
  brightness : ℚ
  defaultTarget : ℕ
  defaultDuration : ℚ
  defaultTimes : ℚ
deriving DecidableEq

/-- The `FlagOptions` / `DefaultOptions` object: every field optional. -/
structure FlagOptions where
  brightness : Option ℚ
  target : Option ℕ
  duration : Option ℚ
  times : Option ℚ
deriving DecidableEq

/-- `clamp` (src/util.ts lines 3-5): `Math.min(Math.max(input, minimum),
maximum)`. -/
def clamp (input minimum maximum : ℚ) : ℚ :=
  min (max input minimum) maximum

/-- `LuxaFlag._configure` of the queued facade (unnamed/part_000 lines
56-61).  Each field falls back to the CONSTRUCTOR DEFAULT (1, ALL, 20, 5)
when unspecified: the previous configuration `s` is ignored. -/
def luxaConfigure (_s : FlagConfig) (o : FlagOptions) : FlagConfig :=
  { brightness := clamp (o.brightness.getD 1) 0 1
    defaultTarget := o.target.getD allLEDs
    defaultDuration := clamp (o.duration.getD 20) 0 255
    defaultTimes := clamp (o.times.getD 5) 0 255 }

/-- `LuxaFlag.configure` of the superseded synchronous facade (src/flag.ts
lines 96-101): each field falls back to its CURRENT value. -/
def flagConfigure (s : FlagConfig) (o : FlagOptions) : FlagConfig :=
  { brightness := clamp (o.brightness.getD s.brightness) 0 1
    defaultTarget := o.target.getD s.defaultTarget
    defaultDuration := clamp (o.duration.getD s.defaultDuration) 0 255
    defaultTimes := clamp (o.times.getD s.defaultTimes) 0 255 }

/-- `configure({})`: the options object with no field specified. -/
def emptyOptions : FlagOptions :=
  ⟨none, none, none, none⟩

/-- Claim C7 (code bug): in the queued facade, configure({}) does NOT
leave the configuration unchanged: `_configure` falls back to the
constructor defaults rather than the current values, so from
(brightness 1/2, target BACK = 0x42, duration 30, times 7) it resets the
state to (1, ALL = 0xff, 20, 5).  The superseded synchronous facade's
configure (src/flag.ts), which falls back to the current values, does
leave the state unchanged, as does `configure`'s own documentation
("options to change") and the spec intend. -/
theorem configure_empty_resets_defaults :
    luxaConfigure ⟨1 / 2, 0x42, 30, 7⟩ emptyOptions = ⟨1, 0xff, 20, 5⟩ ∧
    luxaConfigure ⟨1 / 2, 0x42, 30, 7⟩ emptyOptions ≠ ⟨1 / 2, 0x42, 30, 7⟩ ∧
    flagConfigure ⟨1 / 2, 0x42, 30, 7⟩ emptyOptions = ⟨1 / 2, 0x42, 30, 7⟩ := by
  refine ⟨?_, ?_, ?_⟩
  · simp only [luxaConfigure, emptyOptions, clamp, Option.getD, allLEDs]
    norm_num
  · simp only [luxaConfigure, emptyOptions, clamp, Option.getD, allLEDs,
      ne_eq, FlagConfig.mk.injEq]
    norm_num
  · simp only [flagConfigure, emptyOptions, clamp, Option.getD]
    norm_num

/-! ### The facade command bodies (unnamed/part_000 lines 86-159): each
body evaluates the codec (which may throw) while building the arguments of
`write`, so a codec error precedes any transmission; on success the body
writes one frame and then awaits the command's response code. -/

/-- Options of `fade` (target?, duration?). -/
structure FadeOpts where
  target : Option ℕ
  duration : Option ℚ

/-- Options of `flash` (target?, duration?, times?). -/
structure FlashOpts where
  target : Option ℕ
  duration : Option ℚ
  times : Option ℚ

/-- Options of `wave` (duration?, times?). -/
structure WaveOpts where
  duration : Option ℚ
  times : Option ℚ

/-- Body of `color(color, target?)` (unnamed/part_000 lines 86-91): the
written frame and the awaited response (ACK), or the codec error. -/
def colorBody (w : Bool) (cfg : FlagConfig) (c : List Char)
    (target : Option ℕ) : Except LuxaErr (List ℤ × Response) :=
  match luxaHex2bytes cfg.brightness c with
  | .error e => .error e
  | .ok rgb =>
    .ok (luxaWrite w
      (colorFrameArgs ((target.getD cfg.defaultTarget : ℕ) : ℚ) rgb), .ACK)

/-- Body of `fade(color, opts?)` (unnamed/part_000 lines 101-113). -/
def fadeBody (w : Bool) (cfg : FlagConfig) (c : List Char)
    (opts : FadeOpts) : Except LuxaErr (List ℤ × Response) :=
  match luxaHex2bytes cfg.brightness c with
  | .error e => .error e
  | .ok rgb =>
    .ok (luxaWrite w
      (fadeFrameArgs ((opts.target.getD cfg.defaultTarget : ℕ) : ℚ) rgb
        (opts.duration.getD cfg.defaultDuration)), .DONE)

/-- Body of `flash(color, opts?)` (unnamed/part_000 lines 123-136). -/
def flashBody (w : Bool) (cfg : FlagConfig) (c : List Char)
    (opts : FlashOpts) : Except LuxaErr (List ℤ × Response) :=
  match luxaHex2bytes cfg.brightness c with
  | .error e => .error e
  | .ok rgb =>
    .ok (luxaWrite w
      (flashFrameArgs ((opts.target.getD cfg.defaultTarget : ℕ) : ℚ) rgb
        (opts.duration.getD cfg.defaultDuration)
        (opts.times.getD cfg.defaultTimes)), .DONE)

/-- Body of `wave(color, wave, opts?)` (unnamed/part_000 lines 147-159). -/
def waveBody (w : Bool) (cfg : FlagConfig) (c : List Char) (wave : ℕ)
    (opts : WaveOpts) : Except LuxaErr (List ℤ × Response) :=
  match luxaHex2bytes cfg.brightness c with
  | .error e => .error e
  | .ok rgb =>
    .ok (luxaWrite w
      (waveFrameArgs (wave : ℚ) rgb
        (opts.times.getD cfg.defaultTimes)
        (opts.duration.getD cfg.defaultDuration)), .DONE)

/-- Claim C9: for every malformed color string, each facade command
(color, fade, flash, wave) raises the invalid-color error at encode time —
the codec error arises while the arguments of `write` are evaluated — so
no frame is written (the body produces no frame, only the error). -/
theorem invalid_color_fails_before_write (w : Bool) (cfg : FlagConfig)
    (c : List Char) (tgt : Option ℕ) (fo : FadeOpts) (so : FlashOpts)
    (wo : WaveOpts) (p : ℕ) (hc : validColor c = false) :
    colorBody w cfg c tgt = .error (.invalidColor (trimJs c)) ∧
    fadeBody w cfg c fo = .error (.invalidColor (trimJs c)) ∧
    flashBody w cfg c so = .error (.invalidColor (trimJs c)) ∧
    waveBody w cfg c p wo = .error (.invalidColor (trimJs c)) := by
  have herr : hex2bytes c = .error (.invalidColor (trimJs c)) :=
    (hex2bytes_ok_iff c).2 hc
  have herr2 : luxaHex2bytes cfg.brightness c =
      .error (.invalidColor (trimJs c)) := by
    unfold luxaHex2bytes
    rw [herr]
    rfl
  refine ⟨?_, ?_, ?_, ?_⟩
  · unfold colorBody
    rw [herr2]
  · unfold fadeBody
    rw [herr2]
  · unfold flashBody
    rw [herr2]
  · unfold waveBody
    rw [herr2]

/-- Witness for C9: the malformed string "red" makes all four commands
fail with the invalid-color error before producing any frame. -/
theorem invalid_color_fails_before_write_witness :
    colorBody false ⟨1, 0xff, 20, 5⟩ ['r', 'e', 'd'] none =
      .error (.invalidColor (trimJs ['r', 'e', 'd'])) ∧
    fadeBody false ⟨1, 0xff, 20, 5⟩ ['r', 'e', 'd'] ⟨none, none⟩ =
      .error (.invalidColor (trimJs ['r', 'e', 'd'])) ∧
    flashBody false ⟨1, 0xff, 20, 5⟩ ['r', 'e', 'd'] ⟨none, none, none⟩ =
      .error (.invalidColor (trimJs ['r', 'e', 'd'])) ∧
    waveBody false ⟨1, 0xff, 20, 5⟩ ['r', 'e', 'd'] 1 ⟨none, none⟩ =
      .error (.invalidColor (trimJs ['r', 'e', 'd'])) :=
  invalid_color_fails_before_write false ⟨1, 0xff, 20, 5⟩ ['r', 'e', 'd']
    none ⟨none, none⟩ ⟨none, none, none⟩ ⟨none, none⟩ 1 (by decide)

/-! ### The task queue (src/device/device.ts), as an event-driven state
machine on one cooperative timeline (spec §5).  Events:

* `enq i` — a facade command calls `enqueue` with a fresh task id `i`
  (lines 101-125): push to the backlog, and when no task is current, run
  `next()` immediately;
* `complete` — the current task's body promise fulfills; its deferred
  promise is resolved and the first `then` handler of the enqueue chain
  runs `next()` (lines 91 and 120-124);
* `failT` — the current task's body promise rejects (for instance a
  malformed color string thrown inside the async body).  Line 91 installs
  only a fulfillment handler (`task.body().then(...)`), never a rejection
  handler, so nothing advances; and since a JS promise settles at most
  once, the rejected body can never fulfill later — recorded by the
  `stuck` flag;
* `blockOn r` — the executing body calls `blockUntil(r)` (lines 64-73),
  installing the single pending-response slot (`unblock`/`unblockOn`);
* `data r` — an inbound buffer decodes to response `r` (lines 33-38): when
  the pending slot holds exactly `r`, the suspended body is resumed, its
  promise (the body returns the `blockUntil` promise) fulfills, and the
  queue advances — collapsed into one step of the cooperative timeline;
* `clearQ` — `clear()` (lines 137-140) empties the backlog and leaves the
  current task running.

`submitted`, `started` and `completed` are history variables recording the
order of submissions, body starts and body completions. -/

/-- State of one `LuxaDevice` queue plus its event histories. -/
structure QState where
  current : Option ℕ
  backlog : List ℕ
  pending : Option Response
  stuck : Bool
  submitted : List ℕ
  started : List ℕ
  completed : List ℕ
deriving DecidableEq

/-- The events that drive the queue (see the section comment). -/
inductive QEvent where
  | enq (i : ℕ)
  | complete
  | failT
  | blockOn (r : Response)
  | data (r : Response)
  | clearQ
deriving DecidableEq

/-- `next()` (device.ts lines 78-92): shift the backlog, install the
result (or nothing) as current, unconditionally clear the unblock slot,
and, when a task was present, start its body. -/
def nextQ (s : QState) : QState :=
  match s.backlog with
  | [] => { s with current := none, pending := none }
  | t :: rest =>
    { s with
        current := some t
        backlog := rest
        pending := none
        started := s.started ++ [t] }

/-- One step of the queue. -/
def stepQ (s : QState) : QEvent → QState
  | .enq i =>
    if s.current = none then
      nextQ { s with
          backlog := s.backlog ++ [i]
          submitted := s.submitted ++ [i] }
    else
      { s with
          backlog := s.backlog ++ [i]
          submitted := s.submitted ++ [i] }
  | .complete =>
    match s.current with
    | some t =>
      if s.stuck then s
      else nextQ { s with completed := s.completed ++ [t] }
    | none => s
  | .failT =>
    match s.current with
    | some _ => { s with stuck := true }
    | none => s
  | .blockOn r => { s with pending := some r }
  | .data r =>
    if s.pending = some r then
      match s.current with
      | some t =>
        if s.stuck then s
        else nextQ { s with completed := s.completed ++ [t] }
      | none => s
    else s
  | .clearQ => { s with backlog := [] }

/-- The queue constructed by `LuxaDevice`'s constructor: no current task,
empty backlog, no pending marker. -/
def initQ : QState :=
  ⟨none, [], none, false, [], [], []⟩

/-- Run a sequence of events. -/
def runQ (evs : List QEvent) (s : QState) : QState :=
  evs.foldl stepQ s

/-! ### Queue invariants -/

theorem nextQ_inv (s : QState)
    (h1 : s.submitted = s.started ++ s.backlog)
    (h2 : s.started = s.completed) :
    (nextQ s).submitted = (nextQ s).started ++ (nextQ s).backlog ∧
    (nextQ s).started = (nextQ s).completed ++ (nextQ s).current.toList := by
  obtain ⟨cur, bl, pend, st, sub, sta, comp⟩ := s
  dsimp only at h1 h2
  cases bl with
  | nil =>
    refine ⟨?_, ?_⟩
    · simpa [nextQ] using h1
    · simpa [nextQ] using h2
  | cons t rest =>
    refine ⟨?_, ?_⟩
    · simp [nextQ, h1]
    · simp [nextQ, h2]

theorem stepQ_inv (s : QState) (e : QEvent) (hne : e ≠ .clearQ)
    (h1 : s.submitted = s.started ++ s.backlog)
    (h2 : s.started = s.completed ++ s.current.toList) :
    (stepQ s e).submitted = (stepQ s e).started ++ (stepQ s e).backlog ∧
    (stepQ s e).started = (stepQ s e).completed ++ (stepQ s e).current.toList := by
  obtain ⟨cur, bl, pend, st, sub, sta, comp⟩ := s
  dsimp only at h1 h2
  cases e with
  | enq i =>
    cases cur with
    | none =>
      exact nextQ_inv ⟨none, bl ++ [i], pend, st, sub ++ [i], sta, comp⟩
        (by dsimp only; rw [h1]; simp)
        (by dsimp only; simpa using h2)
    | some t =>
      refine ⟨?_, ?_⟩
      · show sub ++ [i] = sta ++ (bl ++ [i])
        rw [h1]
        simp
      · show sta = comp ++ (some t).toList
        exact h2
  | complete =>
    cases cur with
    | none => exact ⟨h1, h2⟩
    | some t =>
      cases st with
      | true => exact ⟨h1, h2⟩
      | false =>
        exact nextQ_inv ⟨some t, bl, pend, false, sub, sta, comp ++ [t]⟩
          (by dsimp only; exact h1)
          (by simpa using h2)
  | failT =>
    cases cur with
    | none => exact ⟨h1, h2⟩
    | some t => exact ⟨h1, h2⟩
  | blockOn r => exact ⟨h1, h2⟩
  | data r =>
    simp only [stepQ]
    by_cases hp : pend = some r
    · rw [if_pos hp]
      cases cur with
      | none => exact ⟨h1, h2⟩
      | some t =>
        cases st with
        | true => exact ⟨h1, h2⟩
        | false =>
          exact nextQ_inv ⟨some t, bl, pend, false, sub, sta, comp ++ [t]⟩
            (by dsimp only; exact h1)
            (by simpa using h2)
    · rw [if_neg hp]
      exact ⟨h1, h2⟩
  | clearQ => exact absurd rfl hne

theorem runQ_inv (evs : List QEvent) (s : QState) (h : QEvent.clearQ ∉ evs)
    (h1 : s.submitted = s.started ++ s.backlog)
    (h2 : s.started = s.completed ++ s.current.toList) :
    (runQ evs s).submitted = (runQ evs s).started ++ (runQ evs s).backlog ∧
    (runQ evs s).started =
      (runQ evs s).completed ++ (runQ evs s).current.toList := by
  induction evs generalizing s with
  | nil => exact ⟨h1, h2⟩
  | cons e evs ih =>
    simp only [List.mem_cons, not_or] at h
    obtain ⟨g1, g2⟩ := stepQ_inv s e (fun he => h.1 he.symm) h1 h2
    exact ih (stepQ s e) h.2 g1 g2

/-- Claim C1: for every sequence of events without a `clear()` — facade
submissions, body completions and failures, blockUntil installations and
inbound data — the queue state reached from the initial state satisfies
`submitted = started ++ backlog` (the bodies begin executing in exact FIFO
submission order, and every submitted-but-unstarted task is still queued
in order: no task is reordered or dropped) and `started = completed ++
current.toList` (every task that ever started has returned except at most
the single current one: at most one body executes at any instant and no
body starts before the previous one has returned). -/
theorem queue_fifo_submission_order (evs : List QEvent)
    (h : QEvent.clearQ ∉ evs) :
    (runQ evs initQ).submitted =
      (runQ evs initQ).started ++ (runQ evs initQ).backlog ∧
    (runQ evs initQ).started =
      (runQ evs initQ).completed ++ (runQ evs initQ).current.toList :=
  runQ_inv evs initQ h rfl rfl

/-- Witness for C1: three tasks enqueued back-to-back with two
completions: the bodies started in submission order [0, 1, 2], tasks 0 and
1 returned before their successors started, and task 2 is the single
current task. -/
theorem queue_fifo_submission_order_witness :
    ((runQ [.enq 0, .enq 1, .enq 2, .complete, .complete] initQ).submitted =
      (runQ [.enq 0, .enq 1, .enq 2, .complete, .complete] initQ).started ++
        (runQ [.enq 0, .enq 1, .enq 2, .complete, .complete] initQ).backlog ∧
    (runQ [.enq 0, .enq 1, .enq 2, .complete, .complete] initQ).started =
      (runQ [.enq 0, .enq 1, .enq 2, .complete, .complete] initQ).completed ++
        (runQ [.enq 0, .enq 1, .enq 2, .complete, .complete]
          initQ).current.toList) ∧
    (runQ [.enq 0, .enq 1, .enq 2, .complete, .complete] initQ).started =
      [0, 1, 2] ∧
    (runQ [.enq 0, .enq 1, .enq 2, .complete, .complete] initQ).completed =
      [0, 1] := by
  refine ⟨queue_fifo_submission_order
    [.enq 0, .enq 1, .enq 2, .complete, .complete] (by decide), ?_, ?_⟩
  · decide
  · decide

/-- Claim C6: the pending-response marker is one single slot — installing
a marker via `blockUntil` overwrites whatever marker was there, so at most
one `(expected-response, completion-signal)` pair is outstanding at any
reachable state — and every `next()` transition clears the slot
unconditionally, whatever the queue state and in particular whether or not
the expected response ever arrived, before any new task body starts. -/
theorem pending_marker_single_and_cleared :
    (∀ s : QState, (nextQ s).pending = none) ∧
    (∀ (s : QState) (r : Response), (stepQ s (.blockOn r)).pending = some r) := by
  constructor
  · intro s
    obtain ⟨cur, bl, pend, st, sub, sta, comp⟩ := s
    cases bl with
    | nil => rfl
    | cons t rest => rfl
  · intro s r
    rfl

/-- Claim C10: once the current task's body has rejected (`stuck` — the
queue installs no rejection handler on task bodies, and a settled promise
cannot fulfill later), no subsequent events — new submissions, inbound
data, completion attempts, clears — ever start another task body or
complete the failed one: `started` and `completed` never grow again, the
failed task stays current forever, and its completion promise (resolved
only by the fulfillment handler of its body) never settles. -/
theorem failed_task_halts_queue (t : ℕ) (s : QState) (evs : List QEvent)
    (hs : s.stuck = true) (hc : s.current = some t) :
    (runQ evs s).stuck = true ∧ (runQ evs s).current = some t ∧
    (runQ evs s).started = s.started ∧
    (runQ evs s).completed = s.completed := by
  induction evs generalizing s with
  | nil => exact ⟨hs, hc, rfl, rfl⟩
  | cons e evs ih =>
    have hstep : (stepQ s e).stuck = true ∧ (stepQ s e).current = some t ∧
        (stepQ s e).started = s.started ∧
        (stepQ s e).completed = s.completed := by
      obtain ⟨cur, bl, pend, st, sub, sta, comp⟩ := s
      dsimp only at hs hc
      subst hs
      subst hc
      cases e with
      | enq i => exact ⟨rfl, rfl, rfl, rfl⟩
      | complete => exact ⟨rfl, rfl, rfl, rfl⟩
      | failT => exact ⟨rfl, rfl, rfl, rfl⟩
      | blockOn r => exact ⟨rfl, rfl, rfl, rfl⟩
      | data r =>
        simp only [stepQ]
        by_cases hp : pend = some r
        · rw [if_pos hp]
          exact ⟨rfl, rfl, rfl, rfl⟩
        · rw [if_neg hp]
          exact ⟨rfl, rfl, rfl, rfl⟩
      | clearQ => exact ⟨rfl, rfl, rfl, rfl⟩
    obtain ⟨a, b, c2, d2⟩ := hstep
    obtain ⟨a2, b2, c3, d3⟩ := ih (stepQ s e) a b
    refine ⟨a2, b2, ?_, ?_⟩
    · show (runQ evs (stepQ s e)).started = s.started
      rw [c3, c2]
    · show (runQ evs (stepQ s e)).completed = s.completed
      rw [d3, d2]

/-- Witness for C10: task 0 starts and its body fails; afterwards a
completion attempt, a matching-looking response and a new submission all
leave the queue stuck on task 0: task 1 (queued before the failure) and
task 2 never start, and nothing ever completes. -/
theorem failed_task_halts_queue_witness :
    ((runQ [.complete, .data .ACK, .enq 2]
        (runQ [.enq 0, .enq 1, .failT] initQ)).stuck = true ∧
      (runQ [.complete, .data .ACK, .enq 2]
        (runQ [.enq 0, .enq 1, .failT] initQ)).current = some 0 ∧
      (runQ [.complete, .data .ACK, .enq 2]
        (runQ [.enq 0, .enq 1, .failT] initQ)).started =
        (runQ [.enq 0, .enq 1, .failT] initQ).started ∧
      (runQ [.complete, .data .ACK, .enq 2]
        (runQ [.enq 0, .enq 1, .failT] initQ)).completed =
        (runQ [.enq 0, .enq 1, .failT] initQ).completed) ∧
    (runQ [.enq 0, .enq 1, .failT] initQ).started = [0] ∧
    (runQ [.enq 0, .enq 1, .failT] initQ).completed = [] := by
  refine ⟨failed_task_halts_queue 0 (runQ [.enq 0, .enq 1, .failT] initQ)
    [.complete, .data .ACK, .enq 2] (by decide) (by decide), ?_, ?_⟩
  · decide
  · decide
